import Mathlib

set_option maxHeartbeats 1000000

/-!
Verification development for the PDF-Compressor repository
(src/pdf_compressor.py). The definitions below are a shallow embedding of
the page classifier, the image resampler, the page-selection logic, the
external-tool transforms, the job pipeline, and the job registry routines;
theorems settle the frozen claims about the specification.
-/

namespace PDFC

/-! ## Page classification (classify_page, lines 570-623)

The classifier works on the uppercased corner (title-block) text and the
uppercased full-page text. Regex patterns of the shape
`\b[X][ -.]?\d` (and `\b[F][P]?[ -.]?\d` for fire_safety) are embedded as
an explicit scanner over the character list: a match site is a position at
a word boundary where the letter, an optional separator from the class
`[ -.]` (the ASCII range space..dot, since `-` inside a class is a range;
for fire safety also an optional P before the separator), and then a digit
follow. -/

/-- Word characters for the word-boundary test of the `\b` anchor
(ASCII portion of re's word class). -/
def isWordChar (c : Char) : Bool := c.isAlpha || c.isDigit || c == '_'

/-- Characters matched by the `[ -.]` separator class. Inside a regex
character class a `-` between two characters denotes a range, so this is
the ASCII range from space (0x20) to dot (0x2E) — fifteen characters,
including comma, plus, and hash. -/
def isSepChar (c : Char) : Bool := 0x20 ≤ c.toNat && c.toNat ≤ 0x2E

/-- Does the list start with a digit? -/
def headIsDigit : List Char → Bool
  | c :: _ => c.isDigit
  | [] => false

/-- Match of the suffix `[ -.]?\d` at the head of the list. -/
def sepDigitTail : List Char → Bool
  | c :: rest => c.isDigit || (isSepChar c && headIsDigit rest)
  | [] => false

/-- Match of `[P][ -.]?\d` at the head of the list (the optional P arm of
the fire-safety pattern). -/
def pSepDigitTail : List Char → Bool
  | c :: rest => c == 'P' && sepDigitTail rest
  | [] => false

/-- One sheet-number pattern: a discipline label, the letter class, and
whether an optional `[P]?` follows the letter (only fire_safety has it). -/
structure SheetPattern where
  label : String
  letter : Char
  optionalP : Bool
  deriving DecidableEq

/-- Match of the pattern (without the word-boundary anchor) at the head of
the list. -/
def patAtHead (p : SheetPattern) : List Char → Bool
  | c :: rest =>
      c == p.letter && (sepDigitTail rest || (p.optionalP && pSepDigitTail rest))
  | [] => false

/-- Scan for a match at any word-boundary position. The boolean argument
records whether the current position is a word boundary (start of string,
or preceded by a non-word character). -/
def reSearchAux (p : SheetPattern) : Bool → List Char → Bool
  | _, [] => false
  | bnd, c :: rest =>
      (bnd && patAtHead p (c :: rest)) || reSearchAux p (!isWordChar c) rest

/-- Embedding of `re.search` for one sheet-number pattern. -/
def reSearch (p : SheetPattern) (s : String) : Bool := reSearchAux p true s.data

/-- The sheet-number pattern table of classify_page, in source order. -/
def patterns : List SheetPattern :=
  [⟨"cover_title", 'G', false⟩,
   ⟨"architectural", 'A', false⟩,
   ⟨"structural", 'S', false⟩,
   ⟨"mechanical", 'M', false⟩,
   ⟨"electrical", 'E', false⟩,
   ⟨"plumbing", 'P', false⟩,
   ⟨"landscape", 'L', false⟩,
   ⟨"civil", 'C', false⟩,
   ⟨"fire_safety", 'F', true⟩]

/-- The first pattern of the table matching the text, if any (the
`for k, pat in patterns.items(): if re.search(pat, text): return k` loop). -/
def firstPatternMatch (s : String) : Option String :=
  (patterns.find? (fun p => reSearch p s)).map SheetPattern.label

/-- Does the first list occur at the head of the second? -/
def startsWithChars : List Char → List Char → Bool
  | [], _ => true
  | _ :: _, [] => false
  | a :: as, b :: bs => a == b && startsWithChars as bs

/-- Substring test (Python's `w in full_text`). -/
def containsSub (needle : List Char) : List Char → Bool
  | [] => needle.isEmpty
  | c :: rest => startsWithChars needle (c :: rest) || containsSub needle rest

/-- Python's `any(w in full_text for w in words)`. -/
def keywordHit (words : List String) (full : String) : Bool :=
  words.any (fun w => containsSub w.data full.data)

/-- The discipline keyword table of classify_page, in source order. -/
def discipline_keywords : List (String × List String) :=
  [("fire_safety", ["FIRE PROTECTION", "FIRE ALARM", "SPRINKLER", "EGRESS"]),
   ("mechanical", ["HVAC", "MECHANICAL", "DUCTWORK"]),
   ("electrical", ["ELECTRICAL", "LIGHTING", "PANEL", "ONE-LINE"]),
   ("plumbing", ["PLUMBING", "SANITARY", "STORM DRAIN", "RISER DIAGRAM"]),
   ("civil", ["CIVIL", "GRADING", "UTILITIES", "SITE PLAN"]),
   ("architectural", ["FLOOR PLAN", "ELEVATION", "ARCHITECTURAL"]),
   ("structural", ["STRUCTURAL", "FOUNDATION", "FRAMING"]),
   ("landscape", ["LANDSCAPE", "PLANTING", "IRRIGATION"])]

/-- The administrative keyword table of classify_page, in source order. -/
def general_keywords : List (String × List String) :=
  [("cover_title", ["COVER", "SHEET INDEX", "GENERAL NOTES", "LEGEND", "ABBREVIATIONS"]),
   ("schedules", ["SCHEDULE", "DOOR SCHEDULE", "WINDOW SCHEDULE", "FINISH SCHEDULE"]),
   ("details", ["DETAIL", "CONNECTION", "ASSEMBLY", "SECTION DETAIL"])]

/-- First category of a keyword table with a substring hit in the full
text, if any. -/
def firstKeywordMatch (tbl : List (String × List String)) (full : String) :
    Option String :=
  (tbl.find? (fun kw => keywordHit kw.2 full)).map Prod.fst

/-- Embedding of classify_page: the two-pass pattern cascade over the
corner text then the full text, then the discipline keyword table, then
the administrative keyword table, then "other". -/
def classify_page (corner_text full_text : String) : String :=
  match firstPatternMatch corner_text with
  | some k => k
  | none =>
    match firstPatternMatch full_text with
    | some k => k
    | none =>
      match firstKeywordMatch discipline_keywords full_text with
      | some k => k
      | none =>
        match firstKeywordMatch general_keywords full_text with
        | some k => k
        | none => "other"

/-- C1: classify_page applies the sheet-number patterns to the title-block
text first in the fixed source order and returns the first matching label;
any title-block pattern match decides the result independently of the
full-page text, and only when no pattern matches the title-block text are
the same patterns applied, in the same order, to the full-page text. -/
theorem c1_title_block_priority (corner full1 full2 : String) :
    patterns.map SheetPattern.label =
      ["cover_title", "architectural", "structural", "mechanical",
       "electrical", "plumbing", "landscape", "civil", "fire_safety"] ∧
    (firstPatternMatch corner ≠ none →
      classify_page corner full1 = classify_page corner full2) ∧
    (∀ k, firstPatternMatch corner = some k → classify_page corner full1 = k) ∧
    (firstPatternMatch corner = none →
      ∀ k, firstPatternMatch full1 = some k → classify_page corner full1 = k) := by
  refine ⟨rfl, ?_, ?_, ?_⟩
  · intro h
    unfold classify_page
    cases hc : firstPatternMatch corner with
    | none => exact absurd hc h
    | some k => rfl
  · intro k hk
    unfold classify_page
    rw [hk]
  · intro hc k hk
    unfold classify_page
    rw [hc, hk]

/-- C1 witness: the title-block text "A-101" matches the architectural
pattern, and classification returns "architectural" whatever the full
text says; "A,1" also matches, since the comma falls inside the
`[ -.]` range. -/
theorem c1_witness :
    firstPatternMatch "A-101" = some "architectural" ∧
    classify_page "A-101" "STRUCTURAL FOUNDATION PLAN" = "architectural" ∧
    classify_page "A,1" "STRUCTURAL FOUNDATION PLAN" = "architectural" :=
  ⟨by decide,
   (c1_title_block_priority "A-101" "STRUCTURAL FOUNDATION PLAN" "").2.2.1
     "architectural" (by decide),
   (c1_title_block_priority "A,1" "STRUCTURAL FOUNDATION PLAN" "").2.2.1
     "architectural" (by decide)⟩

/-- C7: with no pattern match in either text, classify_page returns the
first discipline keyword category (tables in the fixed source order) with
a substring hit in the full text; failing that, the first administrative
category with a hit; failing that, "other". -/
theorem c7_keyword_cascade (corner full : String)
    (h1 : firstPatternMatch corner = none)
    (h2 : firstPatternMatch full = none) :
    discipline_keywords.map Prod.fst =
      ["fire_safety", "mechanical", "electrical", "plumbing", "civil",
       "architectural", "structural", "landscape"] ∧
    general_keywords.map Prod.fst = ["cover_title", "schedules", "details"] ∧
    (∀ k, firstKeywordMatch discipline_keywords full = some k →
      classify_page corner full = k) ∧
    (firstKeywordMatch discipline_keywords full = none →
      ∀ k, firstKeywordMatch general_keywords full = some k →
        classify_page corner full = k) ∧
    (firstKeywordMatch discipline_keywords full = none →
      firstKeywordMatch general_keywords full = none →
      classify_page corner full = "other") := by
  refine ⟨rfl, rfl, ?_, ?_, ?_⟩
  · intro k hk
    unfold classify_page
    rw [h1, h2, hk]
  · intro hd k hk
    unfold classify_page
    rw [h1, h2, hd, hk]
  · intro hd hg
    unfold classify_page
    rw [h1, h2, hd, hg]

/-- C7 witness: a page whose full text contains "HVAC" and no sheet-number
pattern is classified "mechanical". -/
theorem c7_witness : classify_page "" "HVAC SYSTEM" = "mechanical" :=
  ((c7_keyword_cascade "" "HVAC SYSTEM" (by decide) (by decide)).2.2.1
    "mechanical" (by decide))

/-! ## Image recompression (_resample_image, lines 628-659)

Images are modelled by their pixel dimensions; the returned byte buffer is
modelled by the encoding decision record: output format, colour mode,
output dimensions, and the quality value actually handed to the encoder
(none on the lossless bilevel path). -/

/-- Output container format chosen by _resample_image. -/
inductive OutFormat
  | tiffG4
  | jpeg
  deriving DecidableEq

/-- The encoding decision of _resample_image. -/
structure EncodedImage where
  format : OutFormat
  colorMode : String
  width : Nat
  height : Nat
  usedQuality : Option Int
  deriving DecidableEq

/-- Dimensions produced by `pil_img.thumbnail((max_dim, max_dim), LANCZOS)`:
the larger side becomes max_dim and the smaller side is scaled to preserve
the aspect ratio (at least one pixel). -/
def thumbnailDims (w h maxDim : Nat) : Nat × Nat :=
  if h ≤ w then (maxDim, max 1 (maxDim * h / w))
  else (max 1 (maxDim * w / h), maxDim)

/-- Embedding of _resample_image: downscale only when the larger side
exceeds max_dim; extreme or line_art mode encodes 1-bit TIFF group4
without the quality parameter; otherwise JPEG in gray (general) or RGB,
with the quality clamped by `max(20, min(95, quality))`. -/
def resample_image (w h maxDim : Nat) (mode : String) (quality : Int)
    (extreme : Bool) : EncodedImage :=
  let dims := if max w h > maxDim then thumbnailDims w h maxDim else (w, h)
  if extreme || mode == "line_art" then
    { format := OutFormat.tiffG4, colorMode := "1",
      width := dims.1, height := dims.2, usedQuality := none }
  else
    { format := OutFormat.jpeg,
      colorMode := if mode == "general" then "L" else "RGB",
      width := dims.1, height := dims.2,
      usedQuality := some (max 20 (min 95 quality)) }

theorem thumbnailDims_facts (w h maxDim : Nat) (hw : 0 < w) (hh : 0 < h)
    (hm : 0 < maxDim) (hgt : maxDim < max w h) :
    max (thumbnailDims w h maxDim).1 (thumbnailDims w h maxDim).2 = maxDim ∧
    (thumbnailDims w h maxDim).1 ≤ w ∧ (thumbnailDims w h maxDim).2 ≤ h := by
  unfold thumbnailDims
  split
  · rename_i hle
    have hmw : maxDim < w := by
      rcases max_cases w h with ⟨he, _⟩ | ⟨he, hle2⟩ <;> omega
    have hdiv : maxDim * h / w ≤ maxDim := by
      calc maxDim * h / w ≤ maxDim * w / w :=
            Nat.div_le_div_right (Nat.mul_le_mul_left maxDim hle)
        _ = maxDim := Nat.mul_div_cancel maxDim hw
    have hdivh : maxDim * h / w ≤ h := by
      calc maxDim * h / w ≤ w * h / w :=
            Nat.div_le_div_right (Nat.mul_le_mul_right h (le_of_lt hmw))
        _ = h := Nat.mul_div_cancel_left h hw
    simp only []
    refine ⟨?_, ?_, ?_⟩
    · have : max 1 (maxDim * h / w) ≤ maxDim := by omega
      omega
    · omega
    · omega
  · rename_i hle
    have hwh : w < h := by omega
    have hmh : maxDim < h := by
      rcases max_cases w h with ⟨he, hge⟩ | ⟨he, _⟩ <;> omega
    have hdiv : maxDim * w / h ≤ maxDim := by
      calc maxDim * w / h ≤ maxDim * h / h :=
            Nat.div_le_div_right (Nat.mul_le_mul_left maxDim (le_of_lt hwh))
        _ = maxDim := Nat.mul_div_cancel maxDim hh
    have hdivw : maxDim * w / h ≤ w := by
      calc maxDim * w / h ≤ h * w / h :=
            Nat.div_le_div_right (Nat.mul_le_mul_right w (le_of_lt hmh))
        _ = w := Nat.mul_div_cancel_left w hh
    simp only []
    refine ⟨?_, ?_, ?_⟩
    · have : max 1 (maxDim * w / h) ≤ maxDim := by omega
      omega
    · omega
    · omega

/-- C6: _resample_image downscales (larger side becomes exactly
max-dimension) exactly when the larger of width/height exceeds
max-dimension, and never upscales; extreme or line_art encodes 1-bit
group4 TIFF ignoring the quality parameter; otherwise it encodes JPEG in
gray for general mode and RGB for mixed mode with the quality clamped to
[20, 95]. -/
theorem c6_resample (w h maxDim : Nat) (mode : String) (quality : Int)
    (extreme : Bool) (hw : 0 < w) (hh : 0 < h) (hm : 0 < maxDim) :
    (maxDim < max w h →
      max (resample_image w h maxDim mode quality extreme).width
          (resample_image w h maxDim mode quality extreme).height = maxDim) ∧
    (¬ maxDim < max w h →
      (resample_image w h maxDim mode quality extreme).width = w ∧
      (resample_image w h maxDim mode quality extreme).height = h) ∧
    ((resample_image w h maxDim mode quality extreme).width ≤ w ∧
     (resample_image w h maxDim mode quality extreme).height ≤ h) ∧
    ((extreme || mode == "line_art") = true →
      (resample_image w h maxDim mode quality extreme).format = OutFormat.tiffG4 ∧
      (resample_image w h maxDim mode quality extreme).colorMode = "1" ∧
      (resample_image w h maxDim mode quality extreme).usedQuality = none ∧
      ∀ q2, resample_image w h maxDim mode q2 extreme =
        resample_image w h maxDim mode quality extreme) ∧
    ((extreme || mode == "line_art") = false →
      (resample_image w h maxDim mode quality extreme).format = OutFormat.jpeg ∧
      (resample_image w h maxDim mode quality extreme).usedQuality =
        some (max 20 (min 95 quality)) ∧
      20 ≤ max 20 (min 95 quality) ∧ max 20 (min 95 quality) ≤ 95 ∧
      (mode = "general" →
        (resample_image w h maxDim mode quality extreme).colorMode = "L") ∧
      (mode = "mixed" →
        (resample_image w h maxDim mode quality extreme).colorMode = "RGB")) := by
  have hdims : (resample_image w h maxDim mode quality extreme).width =
      (if max w h > maxDim then thumbnailDims w h maxDim else (w, h)).1 ∧
      (resample_image w h maxDim mode quality extreme).height =
      (if max w h > maxDim then thumbnailDims w h maxDim else (w, h)).2 := by
    simp only [resample_image]
    by_cases hc : (extreme || mode == "line_art") = true
    · rw [if_pos hc]
      exact ⟨rfl, rfl⟩
    · rw [if_neg hc]
      exact ⟨rfl, rfl⟩
  refine ⟨?_, ?_, ?_, ?_, ?_⟩
  · intro hgt
    rw [hdims.1, hdims.2, if_pos hgt]
    exact (thumbnailDims_facts w h maxDim hw hh hm hgt).1
  · intro hle
    rw [hdims.1, hdims.2, if_neg hle]
    exact ⟨rfl, rfl⟩
  · by_cases hgt : maxDim < max w h
    · rw [hdims.1, hdims.2, if_pos hgt]
      exact (thumbnailDims_facts w h maxDim hw hh hm hgt).2
    · rw [hdims.1, hdims.2, if_neg hgt]
      exact ⟨le_refl w, le_refl h⟩
  · intro hcond
    refine ⟨?_, ?_, ?_, fun q2 => ?_⟩ <;> simp [resample_image, hcond]
  · intro hcond
    have hext : extreme = false := by
      cases extreme
      · rfl
      · simp at hcond
    have hml : (mode == "line_art") = false := by
      cases hml2 : mode == "line_art"
      · rfl
      · rw [hml2] at hcond
        simp [hext] at hcond
    refine ⟨?_, ?_, ?_, ?_, ?_, ?_⟩
    · simp [resample_image, hext, hml]
    · simp [resample_image, hext, hml]
    · omega
    · omega
    · intro hmode
      subst hmode
      simp [resample_image, hext, hml]
    · intro hmode
      subst hmode
      simp [resample_image, hext, hml]

/-- C6 witness: the spec example — a 2000 by 1500 colour photo at
max-dimension 1000, quality 60, general mode, no extreme flag — is
downscaled so its larger side is exactly 1000, and encoded JPEG gray at
quality 60. -/
theorem c6_witness :
    max (resample_image 2000 1500 1000 "general" 60 false).width
        (resample_image 2000 1500 1000 "general" 60 false).height = 1000 ∧
    (resample_image 2000 1500 1000 "general" 60 false).colorMode = "L" ∧
    (resample_image 2000 1500 1000 "general" 60 false).usedQuality = some 60 :=
  ⟨(c6_resample 2000 1500 1000 "general" 60 false (by decide) (by decide)
      (by decide)).1 (by decide),
   ((c6_resample 2000 1500 1000 "general" 60 false (by decide) (by decide)
      (by decide)).2.2.2.2 (by decide)).2.2.2.2.1 rfl,
   by decide⟩

/-! ## Page selection (process_job lines 686-695, compress lines 849-855)

process_job receives `extract_pages` as `None` or a Python list of 1-based
page numbers; `if extract_pages:` is Python truthiness, so `None` and the
empty list both select all pages. -/

/-- Python truthiness of the `extract_pages` argument. -/
def pyTruthy : Option (List Int) → Bool
  | none => false
  | some l => !l.isEmpty

/-- The filtered 0-based keep list:
`keep = [p - 1 for p in extract_pages]` then
`keep = [p for p in keep if 0 <= p < src.page_count]`. -/
def keepOf (l : List Int) (pc : Nat) : List Int :=
  (l.map (fun p => p - 1)).filter (fun p => decide (0 ≤ p) && decide (p < (pc : Int)))

/-- Embedding of the page-selection step of process_job: truthy list →
convert and filter, raising ValueError "No valid pages selected." when the
result is empty; otherwise all pages in order. -/
def selectPages (extract_pages : Option (List Int)) (pc : Nat) :
    Except String (List Int) :=
  if pyTruthy extract_pages then
    if (keepOf (extract_pages.getD []) pc).isEmpty then
      Except.error "No valid pages selected."
    else Except.ok (keepOf (extract_pages.getD []) pc)
  else Except.ok ((List.range pc).map Int.ofNat)

/-- ASCII whitespace stripped by Python's `str.strip()`. -/
def isPySpace (c : Char) : Bool :=
  c == ' ' || c == '\t' || c == '\n' || c == '\r' || c == '\x0b' || c == '\x0c'

/-- Python's `str.strip()` over the character list. -/
def pyStrip (l : List Char) : List Char :=
  ((l.dropWhile isPySpace).reverse.dropWhile isPySpace).reverse

/-- Python's `str.split(",")`: split at every comma, keeping empty
tokens (the empty string yields one empty token). -/
def splitOnComma : List Char → List (List Char)
  | [] => [[]]
  | c :: rest =>
    if c == ',' then [] :: splitOnComma rest
    else
      match splitOnComma rest with
      | t :: ts => (c :: t) :: ts
      | [] => [[c]]

/-- Python's `str.isdigit`: non-empty and all digits. -/
def pyIsDigit (t : List Char) : Bool := !t.isEmpty && t.all Char.isDigit

/-- Value of `int(token)` for a token whose stripped form is all digits. -/
def digitsToNat (t : List Char) : Nat :=
  t.foldl (fun a c => a * 10 + (c.toNat - 48)) 0

/-- The list comprehension of the compress route:
`[int(p) for p in extract_pages_str.split(",") if p.strip().isdigit()]`. -/
def parseTokens (ts : List (List Char)) : List Int :=
  (ts.filter (fun t => pyIsDigit (pyStrip t))).map
    (fun t => Int.ofNat (digitsToNat (pyStrip t)))

/-- Embedding of the extract_pages parsing of the compress route: the form
value is stripped; an empty string yields the empty list, otherwise the
comma-split tokens are filtered to digit strings and parsed. -/
def parse_extract_pages (s : String) : List Int :=
  if (pyStrip s.data).isEmpty then [] else parseTokens (splitOnComma (pyStrip s.data))

theorem keepOf_eq_nil_iff (l : List Int) (pc : Nat) :
    keepOf l pc = [] ↔ ∀ p ∈ l, ¬(1 ≤ p ∧ p ≤ (pc : Int)) := by
  unfold keepOf
  rw [List.filter_eq_nil_iff]
  constructor
  · intro hall p hp hrange
    have hmem : p - 1 ∈ l.map (fun p => p - 1) := List.mem_map_of_mem _ hp
    have := hall (p - 1) hmem
    simp only [Bool.and_eq_true, decide_eq_true_eq] at this
    omega
  · intro hall q hq
    simp only [List.mem_map] at hq
    obtain ⟨p, hp, rfl⟩ := hq
    have := hall p hp
    simp only [Bool.and_eq_true, decide_eq_true_eq]
    omega

/-- C3: with a supplied (non-empty) 1-based page list, each entry is
converted to 0-based and entries outside [0, pageCount) are discarded; the
selection fails with the invalid-selection ValueError exactly when the
filtered list is empty, and otherwise yields that filtered list; with no
list supplied, all pages are selected in order. -/
theorem c3_page_selection (extract_pages : Option (List Int)) (pc : Nat) :
    (∀ l, extract_pages = some l → l ≠ [] →
      ((selectPages extract_pages pc = Except.error "No valid pages selected.") ↔
        ∀ p ∈ l, ¬(1 ≤ p ∧ p ≤ (pc : Int))) ∧
      (∀ keep, selectPages extract_pages pc = Except.ok keep →
        keep = (l.map (fun p => p - 1)).filter
          (fun p => decide (0 ≤ p) && decide (p < (pc : Int))))) ∧
    (extract_pages = none →
      selectPages extract_pages pc = Except.ok ((List.range pc).map Int.ofNat)) := by
  constructor
  · intro l hl hne
    subst hl
    have htruthy : pyTruthy (some l) = true := by
      simp [pyTruthy, List.isEmpty_iff, hne]
    constructor
    · rw [← keepOf_eq_nil_iff]
      unfold selectPages
      rw [if_pos htruthy]
      simp only [Option.getD_some]
      constructor
      · intro herr
        by_cases hemp : (keepOf l pc).isEmpty
        · exact List.isEmpty_iff.mp hemp
        · rw [if_neg hemp] at herr
          exact absurd herr (by simp)
      · intro hnil
        rw [if_pos (by simp [List.isEmpty_iff, hnil])]
    · intro keep hkeep
      unfold selectPages at hkeep
      rw [if_pos htruthy] at hkeep
      simp only [Option.getD_some] at hkeep
      by_cases hemp : (keepOf l pc).isEmpty
      · rw [if_pos hemp] at hkeep
        exact absurd hkeep (by simp)
      · rw [if_neg hemp] at hkeep
        simp only [Except.ok.injEq] at hkeep
        exact hkeep.symm
  · intro hnone
    subst hnone
    rfl

/-- C3 witness: the supplied list [5, -2] against a 3-page document leaves
no valid page, so selection fails with the invalid-selection error; a
missing list selects pages 0, 1, 2. -/
theorem c3_witness :
    selectPages (some [5, -2]) 3 = Except.error "No valid pages selected." ∧
    selectPages none 3 = Except.ok [0, 1, 2] :=
  ⟨((c3_page_selection (some [5, -2]) 3).1 [5, -2] rfl (by decide)).1.mpr
      (by decide),
   by have := (c3_page_selection none 3).2 rfl
      simpa using this⟩

/-- C10: when every comma token of the submitted extract_pages string
fails the digit test, all tokens are silently dropped, the parsed list is
empty, and page selection returns all pages instead of failing; the
invalid-selection error can only arise when some token is a digit string
and every parsed page number is out of range. -/
theorem c10_nondigit_tokens (s : String) (pc : Nat) :
    ((∀ t ∈ splitOnComma (pyStrip s.data), pyIsDigit (pyStrip t) = false) →
      parse_extract_pages s = [] ∧
      selectPages (some (parse_extract_pages s)) pc =
        Except.ok ((List.range pc).map Int.ofNat)) ∧
    (selectPages (some (parse_extract_pages s)) pc =
        Except.error "No valid pages selected." →
      (∃ t ∈ splitOnComma (pyStrip s.data), pyIsDigit (pyStrip t) = true) ∧
      ∀ p ∈ parse_extract_pages s, ¬(1 ≤ p ∧ p ≤ (pc : Int))) := by
  constructor
  · intro hall
    have hparse : parse_extract_pages s = [] := by
      unfold parse_extract_pages
      split
      · rfl
      · unfold parseTokens
        rw [List.filter_eq_nil_iff.mpr (fun t ht => by simp [hall t ht])]
        rfl
    refine ⟨hparse, ?_⟩
    rw [hparse]
    rfl
  · intro herr
    have htruthy : pyTruthy (some (parse_extract_pages s)) = true := by
      by_cases ht : pyTruthy (some (parse_extract_pages s)) = true
      · exact ht
      · unfold selectPages at herr
        rw [if_neg ht] at herr
        exact absurd herr (by simp)
    have hne : parse_extract_pages s ≠ [] := by
      intro hnil
      rw [hnil] at htruthy
      simp [pyTruthy] at htruthy
    constructor
    · by_contra hnone
      push_neg at hnone
      unfold parse_extract_pages at hne
      rcases Decidable.em ((pyStrip s.data).isEmpty = true) with he | he
      · rw [if_pos he] at hne
        exact hne rfl
      · rw [if_neg he] at hne
        unfold parseTokens at hne
        rw [List.filter_eq_nil_iff.mpr (fun t ht => by
          have := hnone t ht
          simp [Bool.not_eq_true] at this ⊢
          exact this)] at hne
        exact hne rfl
    · have hempk : (keepOf (parse_extract_pages s) pc).isEmpty = true := by
        by_cases he : (keepOf (parse_extract_pages s) pc).isEmpty = true
        · exact he
        · unfold selectPages at herr
          rw [if_pos htruthy] at herr
          simp only [Option.getD_some] at herr
          rw [if_neg he] at herr
          exact absurd herr (by simp)
      exact (keepOf_eq_nil_iff _ pc).mp (List.isEmpty_iff.mp hempk)

/-- C10 witness: the string "a,b" parses to the empty list and a 2-page
job keeps both pages instead of failing. -/
theorem c10_witness :
    parse_extract_pages "a,b" = [] ∧
    selectPages (some (parse_extract_pages "a,b")) 2 = Except.ok [0, 1] := by
  have := (c10_nondigit_tokens "a,b" 2).1 (by decide)
  exact ⟨this.1, by rw [this.2]; rfl⟩

/-! ## External tool transforms (lines 453-545)

The Ghostscript subprocess and the pikepdf library pass are external
collaborators; their behaviour in one invocation is modelled by an
environment value: executable missing, an exception, or an exit with a
return code and captured stdout bytes (pikepdf: an exception or a
successful result). Bytes are modelled as lists of naturals. -/

/-- An exception raised by a Python callee: PyMuPDF raises ValueError for
malformed link destinations; anything else is some other exception. -/
inductive PyErr
  | valueError (msg : String)
  | otherError (msg : String)
  deriving DecidableEq

/-- The message captured by `str(e)` at the top-level handler. -/
def PyErr.message : PyErr → String
  | .valueError m => m
  | .otherError m => m

/-- Outcome of one Ghostscript invocation attempt. -/
inductive GsResult
  | noExe
  | procError (msg : String)
  | exited (returncode : Int) (out : List Nat)
  deriving DecidableEq

/-- Embedding of ghostscript_compress: missing executable, a raised
exception, or a non-zero exit returns the input unchanged; a zero exit
with empty stdout also returns the input (`return out if out else
input_bytes`); otherwise the captured stdout. -/
def ghostscript_compress (input_bytes : List Nat) (_extreme : Bool)
    (gsEnv : GsResult) : List Nat :=
  match gsEnv with
  | GsResult.noExe => input_bytes
  | GsResult.procError _ => input_bytes
  | GsResult.exited rc out =>
      if rc ≠ 0 then input_bytes
      else if out.isEmpty then input_bytes else out

/-- Embedding of pikepdf_optimize: any internal failure returns the input
unchanged, otherwise the library result. -/
def pikepdf_optimize (input_bytes : List Nat) (pkEnv : Option (List Nat)) :
    List Nat :=
  match pkEnv with
  | none => input_bytes
  | some out => out

/-! ## The job record and the pipeline (process_job, lines 672-805)

A job-store entry is the dict written by the compress route and mutated by
process_job. `process_job` is embedded as the trace of job-record states
written over the job's lifetime, starting at the submitted record;
behaviour of the external collaborators (document open, per-page copy,
Ghostscript, pikepdf) is supplied by an environment. The bytes handled by
the image loop and the structural save do not influence control flow or
the job record (per-image failures are absorbed); the saved intermediate
bytes are an environment value. -/

/-- One job-store entry (`jobs[job_id]`). -/
structure Job where
  status : String
  progress : Nat
  output_buffer : Option (List Nat)
  error : Option String
  created_at : Int
  input_path : String
  deriving DecidableEq

/-- The record registered by the compress route on submission. -/
def initJob (c : Int) (path : String) : Job :=
  { status := "queued", progress := 0, output_buffer := none, error := none,
    created_at := c, input_path := path }

/-- A status/progress checkpoint write. -/
def upd (j : Job) (st : String) (pr : Nat) : Job :=
  { j with status := st, progress := pr }

/-- The terminal error update: status and error are replaced, progress is
left frozen. -/
def failJob (j : Job) (m : String) : Job :=
  { j with status := "error", error := some m }

/-- The terminal done update: status, progress 100, output buffer, and a
cleared error. -/
def doneJob (j : Job) (out : List Nat) : Job :=
  { j with
    status := "done"
    progress := 100
    output_buffer := some out
    error := none }

/-- The per-page copy loop: try `insert_pdf` with links; a ValueError is
caught and the page is retried without links; any other exception of the
first attempt, and any exception of the retry, propagates. Returns the
propagated exception, if any. -/
def copyPages (ks : List Nat) (firstCopy retryCopy : Nat → Option PyErr) :
    Option PyErr :=
  match ks with
  | [] => none
  | p :: rest =>
    match firstCopy p with
    | none => copyPages rest firstCopy retryCopy
    | some (PyErr.valueError _) =>
      match retryCopy p with
      | none => copyPages rest firstCopy retryCopy
      | some e => some e
    | some (PyErr.otherError m) => some (PyErr.otherError m)

/-- Does the copy of page p make the job fail: the first attempt raises a
non-ValueError, or it raises a ValueError and the linkless retry also
raises. -/
def pageCopyFails (firstCopy retryCopy : Nat → Option PyErr) (p : Nat) : Bool :=
  match firstCopy p with
  | none => false
  | some (PyErr.valueError _) => (retryCopy p).isSome
  | some (PyErr.otherError _) => true

/-- The progress value written after the idx-th image (1-based):
`20 + int((idx / max(1, total)) * 60)`. -/
def imageProgress (total idx : Nat) : Nat := 20 + idx * 60 / max 1 total

/-- The status label of the page-subsetting checkpoint. -/
def extractLabel (ep : Option (List Int)) (keep : List Int) : String :=
  if pyTruthy ep then
    "Extracting " ++ toString keep.length ++ " selected pages..."
  else "Processing all pages..."

/-- The job states written by the image-recompression loop (one progress
write per unique image, status unchanged). -/
def imageStates (j : Job) (total : Nat) : List Job :=
  (List.range total).map
    (fun i => upd j "Recompressing images..." (imageProgress total (i + 1)))

/-- Environment of one process_job run: the submitted record's fields, the
outcome of opening the source, the per-page outcomes of the two copy
attempts, the job settings that steer control flow, the unique image
xrefs, the structurally-saved intermediate bytes, and the two external
tool outcomes. -/
structure Env where
  created_at : Int
  input_path : String
  openErr : Option PyErr
  pageCount : Nat
  extract_pages : Option (List Int)
  firstCopy : Nat → Option PyErr
  retryCopy : Nat → Option PyErr
  extreme : Bool
  xrefs : List Nat
  saved : List Nat
  gs : GsResult
  pike : Option (List Nat)

/-- The submitted record of a run. -/
def jInit (env : Env) : Job := initJob env.created_at env.input_path

/-- Checkpoint "Initializing..." at progress 5. -/
def jStage1 (env : Env) : Job := upd (jInit env) "Initializing..." 5

/-- Checkpoint after page selection, at progress 10. -/
def jStage2 (env : Env) (keep : List Int) : Job :=
  upd (jStage1 env) (extractLabel env.extract_pages keep) 10

/-- Checkpoint of the extreme-mode cleanup at progress 15 (identity when
extreme mode is off, where no such write happens). -/
def jStage3 (env : Env) (keep : List Int) : Job :=
  if env.extreme then
    upd (jStage2 env keep) "Cleaning annotations & attachments..." 15
  else jStage2 env keep

/-- Checkpoint "Recompressing images..." at progress 20. -/
def jStage4 (env : Env) (keep : List Int) : Job :=
  upd (jStage3 env keep) "Recompressing images..." 20

/-- Checkpoint of the structural save at progress 82. -/
def jStage5 (env : Env) (keep : List Int) : Job :=
  upd (jStage4 env keep) "Saving (PyMuPDF)..." 82

/-- Checkpoint of the Ghostscript stage at progress 90. -/
def jStage6 (env : Env) (keep : List Int) : Job :=
  upd (jStage5 env keep) "Applying Ghostscript compression..." 90

/-- Checkpoint of the pikepdf stage at progress 95. -/
def jStage7 (env : Env) (keep : List Int) : Job :=
  upd (jStage6 env keep) "Optimizing final PDF structure..." 95

/-- The final output bytes: the saved intermediate piped through
Ghostscript then pikepdf. -/
def finalBytes (env : Env) : List Nat :=
  pikepdf_optimize (ghostscript_compress env.saved env.extreme env.gs) env.pike

/-- The terminal done record of a successful run. -/
def jDone (env : Env) (keep : List Int) : Job :=
  doneJob (jStage7 env keep) (finalBytes env)

/-- Embedding of process_job as the trace of job-store states written over
the job's lifetime (submission record first). Any exception of the open,
selection, or copy stages is caught at the top level and recorded as the
terminal error state with progress frozen. -/
def runJob (env : Env) : List Job :=
  match env.openErr with
  | some e => [jInit env, jStage1 env, failJob (jStage1 env) e.message]
  | none =>
    match selectPages env.extract_pages env.pageCount with
    | Except.error m => [jInit env, jStage1 env, failJob (jStage1 env) m]
    | Except.ok keep =>
      match copyPages (keep.map Int.toNat) env.firstCopy env.retryCopy with
      | some e =>
          [jInit env, jStage1 env, jStage2 env keep,
           failJob (jStage2 env keep) e.message]
      | none =>
          [jInit env, jStage1 env, jStage2 env keep] ++
            (if env.extreme then [jStage3 env keep] else []) ++
            (jStage4 env keep :: imageStates (jStage4 env keep) env.xrefs.length) ++
            [jStage5 env keep, jStage6 env keep, jStage7 env keep, jDone env keep]

theorem runJob_open_err (env : Env) (e : PyErr) (h : env.openErr = some e) :
    runJob env = [jInit env, jStage1 env, failJob (jStage1 env) e.message] := by
  simp only [runJob, h]

theorem runJob_sel_err (env : Env) (m : String) (h1 : env.openErr = none)
    (h2 : selectPages env.extract_pages env.pageCount = Except.error m) :
    runJob env = [jInit env, jStage1 env, failJob (jStage1 env) m] := by
  simp only [runJob, h1, h2]

theorem runJob_copy_err (env : Env) (keep : List Int) (e : PyErr)
    (h1 : env.openErr = none)
    (h2 : selectPages env.extract_pages env.pageCount = Except.ok keep)
    (h3 : copyPages (keep.map Int.toNat) env.firstCopy env.retryCopy = some e) :
    runJob env = [jInit env, jStage1 env, jStage2 env keep,
      failJob (jStage2 env keep) e.message] := by
  simp only [runJob, h1, h2, h3]

theorem runJob_success (env : Env) (keep : List Int)
    (h1 : env.openErr = none)
    (h2 : selectPages env.extract_pages env.pageCount = Except.ok keep)
    (h3 : copyPages (keep.map Int.toNat) env.firstCopy env.retryCopy = none) :
    runJob env =
      [jInit env, jStage1 env, jStage2 env keep] ++
        (if env.extreme then [jStage3 env keep] else []) ++
        (jStage4 env keep :: imageStates (jStage4 env keep) env.xrefs.length) ++
        [jStage5 env keep, jStage6 env keep, jStage7 env keep, jDone env keep] := by
  simp only [runJob, h1, h2, h3]

theorem copyPages_eq_none_iff (ks : List Nat) (f r : Nat → Option PyErr) :
    copyPages ks f r = none ↔ ∀ p ∈ ks, pageCopyFails f r p = false := by
  induction ks with
  | nil => simp [copyPages]
  | cons p rest ih =>
    simp only [List.mem_cons]
    constructor
    · intro h q hq
      rcases hq with rfl | hq
      · unfold copyPages at h
        unfold pageCopyFails
        cases hf : f q with
        | none => rfl
        | some e =>
          cases e with
          | valueError m =>
            rw [hf] at h
            cases hr : r q with
            | none => simp [hr]
            | some e2 =>
              rw [hr] at h
              exact absurd h (by simp)
          | otherError m =>
            rw [hf] at h
            exact absurd h (by simp)
      · unfold copyPages at h
        cases hf : f p with
        | none =>
          rw [hf] at h
          exact (ih.mp h) q hq
        | some e =>
          cases e with
          | valueError m =>
            rw [hf] at h
            cases hr : r p with
            | none =>
              rw [hr] at h
              exact (ih.mp h) q hq
            | some e2 =>
              rw [hr] at h
              exact absurd h (by simp)
          | otherError m =>
            rw [hf] at h
            exact absurd h (by simp)
    · intro h
      unfold copyPages
      have hp := h p (Or.inl rfl)
      unfold pageCopyFails at hp
      cases hf : f p with
      | none => exact ih.mpr (fun q hq => h q (Or.inr hq))
      | some e =>
        cases e with
        | valueError m =>
          rw [hf] at hp
          cases hr : r p with
          | none => exact ih.mpr (fun q hq => h q (Or.inr hq))
          | some e2 =>
            rw [hr] at hp
            simp at hp
        | otherError m =>
          rw [hf] at hp
          simp at hp

theorem copyPages_ne_none_iff (ks : List Nat) (f r : Nat → Option PyErr) :
    copyPages ks f r ≠ none ↔ ∃ p ∈ ks, pageCopyFails f r p = true := by
  rw [Ne, copyPages_eq_none_iff]
  push_neg
  simp [Bool.not_eq_false]

theorem imageProgress_le_80 (total idx : Nat) (h : idx ≤ total) :
    imageProgress total idx ≤ 80 := by
  unfold imageProgress
  have h1 : idx * 60 / max 1 total ≤ 60 := by
    have hle : idx * 60 ≤ max 1 total * 60 :=
      Nat.mul_le_mul_right 60 (le_trans h (le_max_right 1 total))
    calc idx * 60 / max 1 total ≤ max 1 total * 60 / max 1 total :=
          Nat.div_le_div_right hle
      _ = 60 := Nat.mul_div_cancel_left 60
          (lt_of_lt_of_le Nat.zero_lt_one (le_max_left 1 total))
  omega

theorem imageProgress_ge_20 (total idx : Nat) : 20 ≤ imageProgress total idx :=
  Nat.le_add_right 20 _

theorem imageProgress_mono (total idx : Nat) :
    imageProgress total idx ≤ imageProgress total (idx + 1) := by
  unfold imageProgress
  have h2 : idx * 60 / max 1 total ≤ (idx + 1) * 60 / max 1 total :=
    Nat.div_le_div_right (Nat.mul_le_mul_right 60 (Nat.le_succ idx))
  omega

theorem extractLabel_ne (ep : Option (List Int)) (keep : List Int) :
    ¬ extractLabel ep keep = "done" ∧ ¬ extractLabel ep keep = "error" := by
  unfold extractLabel
  split
  · constructor <;> intro h <;>
    · have hlen := congrArg String.length h
      simp only [String.length_append] at hlen
      have h1 : ("Extracting " : String).length = 11 := rfl
      have h2 : (" selected pages..." : String).length = 18 := rfl
      have h3 : ("done" : String).length = 4 := rfl
      have h4 : ("error" : String).length = 5 := rfl
      omega
  · constructor <;> decide

/-- The per-state invariant of the job store: progress 100 exactly in
status done; an error status has progress below 100; the output buffer is
present exactly in status done; the error message is present exactly in
status error. -/
def stateOK (j : Job) : Prop :=
  (j.progress = 100 ↔ j.status = "done") ∧
  (j.status = "error" → j.progress < 100) ∧
  (j.output_buffer.isSome ↔ j.status = "done") ∧
  (j.error.isSome ↔ j.status = "error") ∧
  j.progress ≤ 100

@[simp] theorem upd_status (j : Job) (st : String) (pr : Nat) :
    (upd j st pr).status = st := rfl

@[simp] theorem upd_progress (j : Job) (st : String) (pr : Nat) :
    (upd j st pr).progress = pr := rfl

@[simp] theorem upd_buffer (j : Job) (st : String) (pr : Nat) :
    (upd j st pr).output_buffer = j.output_buffer := rfl

@[simp] theorem upd_error (j : Job) (st : String) (pr : Nat) :
    (upd j st pr).error = j.error := rfl

@[simp] theorem failJob_status (j : Job) (m : String) :
    (failJob j m).status = "error" := rfl

@[simp] theorem failJob_progress (j : Job) (m : String) :
    (failJob j m).progress = j.progress := rfl

@[simp] theorem failJob_buffer (j : Job) (m : String) :
    (failJob j m).output_buffer = j.output_buffer := rfl

@[simp] theorem failJob_error (j : Job) (m : String) :
    (failJob j m).error = some m := rfl

@[simp] theorem doneJob_status (j : Job) (out : List Nat) :
    (doneJob j out).status = "done" := rfl

@[simp] theorem doneJob_progress (j : Job) (out : List Nat) :
    (doneJob j out).progress = 100 := rfl

@[simp] theorem doneJob_buffer (j : Job) (out : List Nat) :
    (doneJob j out).output_buffer = some out := rfl

@[simp] theorem doneJob_error (j : Job) (out : List Nat) :
    (doneJob j out).error = none := rfl

@[simp] theorem initJob_status (c : Int) (p : String) :
    (initJob c p).status = "queued" := rfl

@[simp] theorem initJob_progress (c : Int) (p : String) :
    (initJob c p).progress = 0 := rfl

@[simp] theorem initJob_buffer (c : Int) (p : String) :
    (initJob c p).output_buffer = none := rfl

@[simp] theorem initJob_error (c : Int) (p : String) :
    (initJob c p).error = none := rfl

theorem stateOK_mid (j : Job) (st : String) (pr : Nat)
    (hb : j.output_buffer = none) (he : j.error = none)
    (hd : ¬ st = "done") (her : ¬ st = "error") (hpr : pr ≤ 95) :
    stateOK (upd j st pr) := by
  refine ⟨⟨fun h => ?_, fun h => ?_⟩, fun h => ?_,
    ⟨fun h => ?_, fun h => ?_⟩, ⟨fun h => ?_, fun h => ?_⟩, ?_⟩
  · exfalso
    rw [upd_progress] at h
    omega
  · rw [upd_status] at h
    exact absurd h hd
  · rw [upd_status] at h
    exact absurd h her
  · rw [upd_buffer, hb] at h
    simp at h
  · rw [upd_status] at h
    exact absurd h hd
  · rw [upd_error, he] at h
    simp at h
  · rw [upd_status] at h
    exact absurd h her
  · rw [upd_progress]
    omega

theorem stateOK_fail (j : Job) (m : String)
    (hb : j.output_buffer = none) (hpr : j.progress ≤ 95) :
    stateOK (failJob j m) := by
  refine ⟨⟨fun h => ?_, fun h => ?_⟩, fun h => ?_,
    ⟨fun h => ?_, fun h => ?_⟩, ⟨fun h => ?_, fun h => ?_⟩, ?_⟩
  · exfalso
    rw [failJob_progress] at h
    omega
  · rw [failJob_status] at h
    exact absurd h (by decide)
  · rw [failJob_progress]
    omega
  · rw [failJob_buffer, hb] at h
    simp at h
  · rw [failJob_status] at h
    exact absurd h (by decide)
  · rfl
  · rfl
  · rw [failJob_progress]
    omega

theorem stateOK_done (j : Job) (out : List Nat) : stateOK (doneJob j out) := by
  refine ⟨⟨fun _ => rfl, fun _ => rfl⟩, fun h => ?_,
    ⟨fun _ => rfl, fun _ => rfl⟩, ⟨fun h => ?_, fun h => ?_⟩, ?_⟩
  · rw [doneJob_status] at h
    exact absurd h (by decide)
  · rw [doneJob_error] at h
    simp at h
  · rw [doneJob_status] at h
    exact absurd h (by decide)
  · rw [doneJob_progress]

theorem stateOK_init (c : Int) (p : String) : stateOK (initJob c p) := by
  refine ⟨⟨fun h => ?_, fun h => ?_⟩, fun h => ?_,
    ⟨fun h => ?_, fun h => ?_⟩, ⟨fun h => ?_, fun h => ?_⟩, ?_⟩
  · exfalso
    rw [initJob_progress] at h
    omega
  · rw [initJob_status] at h
    exact absurd h (by decide)
  · rw [initJob_status] at h
    exact absurd h (by decide)
  · rw [initJob_buffer] at h
    simp at h
  · rw [initJob_status] at h
    exact absurd h (by decide)
  · rw [initJob_error] at h
    simp at h
  · rw [initJob_status] at h
    exact absurd h (by decide)
  · rw [initJob_progress]
    omega

theorem jStage3_buf (env : Env) (keep : List Int) :
    (jStage3 env keep).output_buffer = none ∧ (jStage3 env keep).error = none := by
  unfold jStage3
  split <;> exact ⟨rfl, rfl⟩

theorem runJob_states (env : Env) : ∀ j ∈ runJob env, stateOK j := by
  intro j hj
  cases hopen : env.openErr with
  | some e =>
    rw [runJob_open_err env e hopen] at hj
    simp only [List.mem_cons, List.not_mem_nil, or_false] at hj
    rcases hj with rfl | rfl | rfl
    · exact stateOK_init env.created_at env.input_path
    · exact stateOK_mid _ _ _ rfl rfl (by decide) (by decide) (by decide)
    · exact stateOK_fail _ _ rfl (show (5 : Nat) ≤ 95 by decide)
  | none =>
    cases hsel : selectPages env.extract_pages env.pageCount with
    | error m =>
      rw [runJob_sel_err env m hopen hsel] at hj
      simp only [List.mem_cons, List.not_mem_nil, or_false] at hj
      rcases hj with rfl | rfl | rfl
      · exact stateOK_init env.created_at env.input_path
      · exact stateOK_mid _ _ _ rfl rfl (by decide) (by decide) (by decide)
      · exact stateOK_fail _ _ rfl (show (5 : Nat) ≤ 95 by decide)
    | ok keep =>
      cases hcopy : copyPages (keep.map Int.toNat) env.firstCopy env.retryCopy with
      | some e =>
        rw [runJob_copy_err env keep e hopen hsel hcopy] at hj
        simp only [List.mem_cons, List.not_mem_nil, or_false] at hj
        rcases hj with rfl | rfl | rfl | rfl
        · exact stateOK_init env.created_at env.input_path
        · exact stateOK_mid _ _ _ rfl rfl (by decide) (by decide) (by decide)
        · exact stateOK_mid _ _ _ rfl rfl (extractLabel_ne _ _).1
            (extractLabel_ne _ _).2 (by decide)
        · exact stateOK_fail _ _ rfl (show (10 : Nat) ≤ 95 by decide)
      | none =>
        rw [runJob_success env keep hopen hsel hcopy] at hj
        rcases List.mem_append.mp hj with hABC | hD
        rotate_left
        · simp only [List.mem_cons, List.not_mem_nil, or_false] at hD
          rcases hD with rfl | rfl | rfl | rfl
          · exact stateOK_mid _ _ _ (jStage3_buf env keep).1
              (jStage3_buf env keep).2 (by decide) (by decide) (by decide)
          · exact stateOK_mid _ _ _ (jStage3_buf env keep).1
              (jStage3_buf env keep).2 (by decide) (by decide) (by decide)
          · exact stateOK_mid _ _ _ (jStage3_buf env keep).1
              (jStage3_buf env keep).2 (by decide) (by decide) (by decide)
          · exact stateOK_done _ _
        · rcases List.mem_append.mp hABC with hAB | hC
          rotate_left
          · rcases List.mem_cons.mp hC with rfl | hImg
            · exact stateOK_mid _ _ _ (jStage3_buf env keep).1
                (jStage3_buf env keep).2 (by decide) (by decide) (by decide)
            · simp only [imageStates, List.mem_map, List.mem_range] at hImg
              obtain ⟨i, hi, hEq⟩ := hImg
              subst hEq
              exact stateOK_mid _ _ _ (jStage3_buf env keep).1
                (jStage3_buf env keep).2 (by decide) (by decide)
                (le_trans (imageProgress_le_80 _ _ (by omega)) (by decide))
          · rcases List.mem_append.mp hAB with hA | hB
            · simp only [List.mem_cons, List.not_mem_nil, or_false] at hA
              rcases hA with rfl | rfl | rfl
              · exact stateOK_init env.created_at env.input_path
              · exact stateOK_mid _ _ _ rfl rfl (by decide) (by decide) (by decide)
              · exact stateOK_mid _ _ _ rfl rfl (extractLabel_ne _ _).1
                  (extractLabel_ne _ _).2 (by decide)
            · by_cases hx : env.extreme = true
              · rw [if_pos hx] at hB
                simp only [List.mem_singleton] at hB
                subst hB
                have h3 : jStage3 env keep =
                    upd (jStage2 env keep)
                      "Cleaning annotations & attachments..." 15 := by
                  unfold jStage3
                  rw [if_pos hx]
                rw [h3]
                exact stateOK_mid _ _ _ rfl rfl (by decide) (by decide) (by decide)
              · rw [if_neg hx] at hB
                exact absurd hB (List.not_mem_nil j)

@[simp] theorem jInit_progress (env : Env) : (jInit env).progress = 0 := rfl

@[simp] theorem jStage1_progress (env : Env) : (jStage1 env).progress = 5 := rfl

@[simp] theorem jStage2_progress (env : Env) (keep : List Int) :
    (jStage2 env keep).progress = 10 := rfl

@[simp] theorem jStage4_progress (env : Env) (keep : List Int) :
    (jStage4 env keep).progress = 20 := rfl

@[simp] theorem jStage5_progress (env : Env) (keep : List Int) :
    (jStage5 env keep).progress = 82 := rfl

@[simp] theorem jStage6_progress (env : Env) (keep : List Int) :
    (jStage6 env keep).progress = 90 := rfl

@[simp] theorem jStage7_progress (env : Env) (keep : List Int) :
    (jStage7 env keep).progress = 95 := rfl

@[simp] theorem jDone_progress (env : Env) (keep : List Int) :
    (jDone env keep).progress = 100 := rfl

theorem jStage3_progress_ex (env : Env) (keep : List Int)
    (hx : env.extreme = true) : (jStage3 env keep).progress = 15 := by
  unfold jStage3
  rw [if_pos hx, upd_progress]

theorem mem_of_getLast?_mem {α : Type} {l : List α} {x : α}
    (h : x ∈ l.getLast?) : x ∈ l := by
  obtain ⟨hne, rfl⟩ := List.mem_getLast?_eq_getLast h
  exact List.getLast_mem hne

theorem chain_le_imageStates (j : Job) (total : Nat) :
    List.Chain' (fun a b : Job => a.progress ≤ b.progress) (imageStates j total) := by
  unfold imageStates
  rw [List.chain'_map]
  cases total with
  | zero => simp
  | succ t =>
    rw [List.chain'_range_succ]
    intro m hm
    simp only [upd_progress]
    exact imageProgress_mono _ _

theorem imageStates_progress (j : Job) (total : Nat) :
    ∀ x ∈ imageStates j total, 20 ≤ x.progress ∧ x.progress ≤ 80 := by
  intro x hx
  simp only [imageStates, List.mem_map, List.mem_range] at hx
  obtain ⟨i, hi, rfl⟩ := hx
  rw [upd_progress]
  exact ⟨imageProgress_ge_20 _ _, imageProgress_le_80 _ _ (by omega)⟩

theorem runJob_chain (env : Env) :
    List.Chain' (fun a b : Job => a.progress ≤ b.progress) (runJob env) := by
  cases hopen : env.openErr with
  | some e =>
    rw [runJob_open_err env e hopen]
    refine List.chain'_cons.mpr ⟨by simp, List.chain'_cons.mpr
      ⟨by simp, List.chain'_singleton _⟩⟩
  | none =>
    cases hsel : selectPages env.extract_pages env.pageCount with
    | error m =>
      rw [runJob_sel_err env m hopen hsel]
      refine List.chain'_cons.mpr ⟨by simp, List.chain'_cons.mpr
        ⟨by simp, List.chain'_singleton _⟩⟩
    | ok keep =>
      cases hcopy : copyPages (keep.map Int.toNat) env.firstCopy env.retryCopy with
      | some e =>
        rw [runJob_copy_err env keep e hopen hsel hcopy]
        refine List.chain'_cons.mpr ⟨by simp, List.chain'_cons.mpr
          ⟨by simp, List.chain'_cons.mpr ⟨by simp, List.chain'_singleton _⟩⟩⟩
      | none =>
        rw [runJob_success env keep hopen hsel hcopy]
        have hAB : ∀ x ∈ [jInit env, jStage1 env, jStage2 env keep] ++
            (if env.extreme = true then [jStage3 env keep] else []),
            x.progress ≤ 20 := by
          intro x hx
          rcases List.mem_append.mp hx with hA | hB
          · simp only [List.mem_cons, List.not_mem_nil, or_false] at hA
            rcases hA with rfl | rfl | rfl <;> simp
          · by_cases hex : env.extreme = true
            · rw [if_pos hex] at hB
              simp only [List.mem_singleton] at hB
              subst hB
              rw [jStage3_progress_ex env keep hex]
              omega
            · rw [if_neg hex] at hB
              exact absurd hB (List.not_mem_nil x)
        have hC : ∀ x ∈ jStage4 env keep ::
            imageStates (jStage4 env keep) env.xrefs.length,
            20 ≤ x.progress ∧ x.progress ≤ 80 := by
          intro x hx
          rcases List.mem_cons.mp hx with rfl | hImg
          · constructor <;> simp
          · exact imageStates_progress _ _ x hImg
        rw [List.chain'_append]
        refine ⟨?_, ?_, ?_⟩
        · rw [List.chain'_append]
          refine ⟨?_, ?_, ?_⟩
          · by_cases hex : env.extreme = true
            · rw [if_pos hex]
              simp only [List.cons_append, List.nil_append]
              refine List.chain'_cons.mpr ⟨by simp, List.chain'_cons.mpr
                ⟨by simp, List.chain'_cons.mpr ⟨?_, List.chain'_singleton _⟩⟩⟩
              rw [jStage3_progress_ex env keep hex]
              simp
            · rw [if_neg hex, List.append_nil]
              refine List.chain'_cons.mpr ⟨by simp, List.chain'_cons.mpr
                ⟨by simp, List.chain'_singleton _⟩⟩
          · refine List.chain'_cons'.mpr ⟨?_, chain_le_imageStates _ _⟩
            intro y hy
            have hym := List.mem_of_mem_head? hy
            have h20 := (imageStates_progress _ _ y hym).1
            simp only [jStage4_progress]
            omega
          · intro x hx y hy
            have hxm := mem_of_getLast?_mem hx
            have hx20 := hAB x hxm
            simp only [List.head?_cons, Option.mem_def, Option.some.injEq] at hy
            subst hy
            simp only [jStage4_progress]
            omega
        · refine List.chain'_cons.mpr ⟨by simp, List.chain'_cons.mpr
            ⟨by simp, List.chain'_cons.mpr ⟨by simp, List.chain'_singleton _⟩⟩⟩
        · intro x hx y hy
          have hxm := mem_of_getLast?_mem hx
          simp only [List.head?_cons, Option.mem_def, Option.some.injEq] at hy
          subst hy
          rcases List.mem_append.mp hxm with h1 | h2
          · have := hAB x h1
            simp only [jStage5_progress]
            omega
          · have := (hC x h2).2
            simp only [jStage5_progress]
            omega

theorem runJob_last_done (env : Env) (keep : List Int)
    (h1 : env.openErr = none)
    (h2 : selectPages env.extract_pages env.pageCount = Except.ok keep)
    (h3 : copyPages (keep.map Int.toNat) env.firstCopy env.retryCopy = none) :
    (runJob env).getLast? = some (jDone env keep) := by
  rw [runJob_success env keep h1 h2 h3]
  rw [List.getLast?_append_of_ne_nil _ (by simp)]
  rfl

/-- C2: over a job's lifetime the written progress values are
monotonically non-decreasing; a written state has progress 100 exactly
when its status is done; an error state keeps progress strictly below
100; and no written state has progress at least 100 without status
done. -/
theorem c2_progress_monotonicity (env : Env) :
    List.Chain' (fun a b => a.progress ≤ b.progress) (runJob env) ∧
    (∀ j ∈ runJob env, (j.progress = 100 ↔ j.status = "done")) ∧
    (∀ j ∈ runJob env, j.status = "error" → j.progress < 100) ∧
    (∀ j ∈ runJob env, 100 ≤ j.progress → j.status = "done") := by
  refine ⟨runJob_chain env, fun j hj => (runJob_states env j hj).1,
    fun j hj => (runJob_states env j hj).2.1, fun j hj h100 => ?_⟩
  have hs := runJob_states env j hj
  exact hs.1.mp (le_antisymm hs.2.2.2.2 h100)

/-- An environment of a clean two-page run with no images and both
external tools unavailable. -/
def envA : Env :=
  { created_at := 0, input_path := "a.pdf", openErr := none, pageCount := 2,
    extract_pages := none,
    firstCopy := fun _ => none, retryCopy := fun _ => none,
    extreme := false, xrefs := [], saved := [37, 80],
    gs := GsResult.noExe, pike := none }

/-- C2 witness: in the clean run the terminal state has progress 100 and
status done. -/
theorem c2_witness :
    ((jDone envA [0, 1]).progress = 100 ↔ (jDone envA [0, 1]).status = "done") :=
  (c2_progress_monotonicity envA).2.1 (jDone envA [0, 1]) (by decide)

/-- C8: at every written state the output buffer is present iff the
status is done, and the error message is present iff the status is
error; the submitted record is queued with no buffer and a null error;
the done update sets the buffer and clears the error; the error update
sets the message and leaves the buffer unset. -/
theorem c8_buffer_error_invariant (env : Env) :
    ((initJob env.created_at env.input_path).status = "queued" ∧
     (initJob env.created_at env.input_path).output_buffer = none ∧
     (initJob env.created_at env.input_path).error = none) ∧
    (∀ j ∈ runJob env, ((j.output_buffer).isSome ↔ j.status = "done") ∧
      ((j.error).isSome ↔ j.status = "error")) ∧
    (∀ j out, (doneJob j out).output_buffer = some out ∧
      (doneJob j out).error = none ∧ (doneJob j out).status = "done") ∧
    (∀ j m, (failJob j m).error = some m ∧
      (failJob j m).output_buffer = j.output_buffer ∧
      (failJob j m).status = "error") :=
  ⟨⟨rfl, rfl, rfl⟩,
   fun j hj => ⟨(runJob_states env j hj).2.2.1, (runJob_states env j hj).2.2.2.1⟩,
   fun _ _ => ⟨rfl, rfl, rfl⟩, fun _ _ => ⟨rfl, rfl, rfl⟩⟩

/-- C8 witness: the terminal state of the clean run has an output buffer
exactly because its status is done. -/
theorem c8_witness :
    ((jDone envA [0, 1]).output_buffer).isSome ↔
      (jDone envA [0, 1]).status = "done" :=
  ((c8_buffer_error_invariant envA).2.1 (jDone envA [0, 1]) (by decide)).1

/-- An environment whose single page fails its first copy attempt with a
non-ValueError exception while the linkless retry would succeed. -/
def envC4 : Env :=
  { created_at := 0, input_path := "b.pdf", openErr := none, pageCount := 1,
    extract_pages := none,
    firstCopy := fun _ => some (PyErr.otherError "copy failed"),
    retryCopy := fun _ => none,
    extreme := false, xrefs := [], saved := [1],
    gs := GsResult.noExe, pike := none }

/-- C4 counterexample: in envC4 the job terminates in status error even
though its only selected page (page index 0) does not fail both copy
attempts — the retry outcome is success — so "the job fails exactly when
some page fails both copy attempts" is false: the code retries only on
ValueError, and a non-ValueError first failure kills the job without a
retry. -/
theorem c4_counterexample :
    ¬ ((((runJob envC4).getLast?).map Job.status = some "error") ↔
        ∃ p ∈ [(0 : Nat)],
          envC4.firstCopy p ≠ none ∧ envC4.retryCopy p ≠ none) := by
  decide

/-- C4 (amended): each selected page's copy is first attempted with link
metadata; only a ValueError failure of that attempt leads to a linkless
retry; the job ends in error exactly when some selected page fails in
this sense — its first attempt raises a non-ValueError, or it raises a
ValueError and the linkless retry also raises. -/
theorem c4_copy_retry (env : Env) (keep : List Int)
    (h1 : env.openErr = none)
    (h2 : selectPages env.extract_pages env.pageCount = Except.ok keep) :
    ((∃ jfin, (runJob env).getLast? = some jfin ∧ jfin.status = "error") ↔
      ∃ p ∈ keep.map Int.toNat,
        pageCopyFails env.firstCopy env.retryCopy p = true) ∧
    (∀ p, pageCopyFails env.firstCopy env.retryCopy p = true ↔
      ((∃ m, env.firstCopy p = some (PyErr.otherError m)) ∨
       ((∃ m, env.firstCopy p = some (PyErr.valueError m)) ∧
         env.retryCopy p ≠ none))) := by
  constructor
  · constructor
    · rintro ⟨jfin, hlast, hstat⟩
      by_cases hcopy :
        copyPages (keep.map Int.toNat) env.firstCopy env.retryCopy = none
      · rw [runJob_last_done env keep h1 h2 hcopy] at hlast
        rw [Option.some.injEq] at hlast
        subst hlast
        rw [jDone] at hstat
        rw [doneJob_status] at hstat
        exact absurd hstat (by decide)
      · exact (copyPages_ne_none_iff _ _ _).mp hcopy
    · intro hex
      have hcopy := (copyPages_ne_none_iff
        (keep.map Int.toNat) env.firstCopy env.retryCopy).mpr hex
      obtain ⟨e, he⟩ := Option.ne_none_iff_exists'.mp hcopy
      refine ⟨failJob (jStage2 env keep) e.message, ?_, rfl⟩
      rw [runJob_copy_err env keep e h1 h2 he]
      rfl
  · intro p
    unfold pageCopyFails
    cases hf : env.firstCopy p with
    | none => simp
    | some e =>
      cases e with
      | valueError m => simp [Option.isSome_iff_ne_none]
      | otherError m => simp

/-- An environment whose single page fails its first copy attempt with
the invalid-link ValueError and succeeds on the linkless retry. -/
def envC4w : Env :=
  { created_at := 0, input_path := "c.pdf", openErr := none, pageCount := 1,
    extract_pages := none,
    firstCopy := fun _ => some (PyErr.valueError "bad link"),
    retryCopy := fun _ => none,
    extreme := false, xrefs := [], saved := [1],
    gs := GsResult.noExe, pike := none }

/-- C4 witness: the per-page failure characterisation evaluated at the
ValueError-then-successful-retry environment. -/
theorem c4_witness :
    pageCopyFails envC4w.firstCopy envC4w.retryCopy 0 = true ↔
      ((∃ m, envC4w.firstCopy 0 = some (PyErr.otherError m)) ∨
       ((∃ m, envC4w.firstCopy 0 = some (PyErr.valueError m)) ∧
         envC4w.retryCopy 0 ≠ none)) :=
  (c4_copy_retry envC4w [0] rfl rfl).2 0

/-- C5: each external transform returns its input unchanged on failure —
Ghostscript when the executable is missing, the subprocess raises, exits
non-zero, or emits empty output; pikepdf on any internal failure — and a
run with both tools unavailable still terminates done with output equal
to the structurally-saved intermediate bytes. -/
theorem c5_tool_fallback (env : Env) (keep : List Int)
    (h1 : env.openErr = none)
    (h2 : selectPages env.extract_pages env.pageCount = Except.ok keep)
    (h3 : copyPages (keep.map Int.toNat) env.firstCopy env.retryCopy = none)
    (hgs : env.gs = GsResult.noExe) (hpk : env.pike = none) :
    (∀ b e, ghostscript_compress b e GsResult.noExe = b) ∧
    (∀ b e m, ghostscript_compress b e (GsResult.procError m) = b) ∧
    (∀ b e rc out, rc ≠ 0 → ghostscript_compress b e (GsResult.exited rc out) = b) ∧
    (∀ b e rc, ghostscript_compress b e (GsResult.exited rc []) = b) ∧
    (∀ b, pikepdf_optimize b none = b) ∧
    ((runJob env).getLast? = some (jDone env keep) ∧
      (jDone env keep).status = "done" ∧
      (jDone env keep).output_buffer = some env.saved) := by
  refine ⟨fun b e => rfl, fun b e m => rfl, ?_, ?_, fun b => rfl, ?_⟩
  · intro b e rc out hrc
    show (if rc ≠ 0 then b else if out.isEmpty = true then b else out) = b
    rw [if_pos hrc]
  · intro b e rc
    show (if rc ≠ 0 then b
      else if ([] : List Nat).isEmpty = true then b else ([] : List Nat)) = b
    by_cases hrc : rc ≠ 0
    · rw [if_pos hrc]
    · rw [if_neg hrc]
      rfl
  · refine ⟨runJob_last_done env keep h1 h2 h3, rfl, ?_⟩
    show (doneJob (jStage7 env keep) (finalBytes env)).output_buffer =
      some env.saved
    rw [doneJob_buffer]
    unfold finalBytes
    rw [hgs, hpk]
    rfl

/-- C5 witness: the clean run with Ghostscript missing and pikepdf
failing ends done with the saved intermediate bytes as output. -/
theorem c5_witness :
    (runJob envA).getLast? = some (jDone envA [0, 1]) ∧
    (jDone envA [0, 1]).output_buffer = some envA.saved :=
  ⟨(c5_tool_fallback envA [0, 1] rfl rfl rfl rfl rfl).2.2.2.2.2.1,
   (c5_tool_fallback envA [0, 1] rfl rfl rfl rfl rfl).2.2.2.2.2.2.2⟩

/-! ## Job registry, status/download routes, and eviction
(status lines 882-891, download lines 893-905, cleanup_old_jobs lines
910-919)

The in-memory `jobs` dict is modelled as an association list with unique
keys (a Python dict cannot hold duplicate keys). cleanup_old_jobs
computes the surviving registry together with the list of temporary input
paths handed to cleanup_temp_file (file deletion). -/

/-- The dict lookup `jobs.get(job_id)`. -/
def lookupJob (reg : List (String × Job)) (jid : String) : Option Job :=
  (reg.find? (fun e => e.1 == jid)).map Prod.snd

/-- Embedding of the status route: not-found for an unknown token,
otherwise the status, progress, and error of the record. -/
def statusRoute (reg : List (String × Job)) (jid : String) :
    Except String (String × Nat × Option String) :=
  match lookupJob reg jid with
  | none => Except.error "Job not found"
  | some j => Except.ok (j.status, j.progress, j.error)

/-- Embedding of the download route: fails unless the job exists, its
status is done, and an output buffer is present. -/
def downloadRoute (reg : List (String × Job)) (jid : String) :
    Except String (List Nat) :=
  match lookupJob reg jid with
  | none => Except.error "File not ready or found"
  | some j =>
    if j.status == "done" then
      match j.output_buffer with
      | some b => Except.ok b
      | none => Except.error "File not ready or found"
    else Except.error "File not ready or found"

/-- Embedding of cleanup_old_jobs: every record older than max_age_sec is
popped from the registry and its temporary input file is deleted; the
result is the surviving registry and the deleted paths. -/
def cleanup_old_jobs (reg : List (String × Job)) (now maxAge : Int) :
    List (String × Job) × List String :=
  (reg.filter (fun e => !(decide (now - e.2.created_at > maxAge))),
   (reg.filter (fun e => decide (now - e.2.created_at > maxAge))).map
     (fun e => e.2.input_path))

/-- C9: after an eviction sweep every job older than the retention window
is gone from the registry whatever its state, its temporary input path is
among the deleted files, and status or download requests for its token
fail with the not-found responses; a younger job survives with its record
intact and still answers status queries. -/
theorem c9_eviction (reg : List (String × Job)) (now maxAge : Int)
    (jid : String) (j : Job)
    (hnodup : (reg.map Prod.fst).Nodup) (hmem : (jid, j) ∈ reg) :
    (now - j.created_at > maxAge →
      lookupJob (cleanup_old_jobs reg now maxAge).1 jid = none ∧
      statusRoute (cleanup_old_jobs reg now maxAge).1 jid =
        Except.error "Job not found" ∧
      downloadRoute (cleanup_old_jobs reg now maxAge).1 jid =
        Except.error "File not ready or found" ∧
      j.input_path ∈ (cleanup_old_jobs reg now maxAge).2) ∧
    (¬ now - j.created_at > maxAge →
      (jid, j) ∈ (cleanup_old_jobs reg now maxAge).1 ∧
      statusRoute (cleanup_old_jobs reg now maxAge).1 jid =
        Except.ok (j.status, j.progress, j.error)) := by
  constructor
  · intro hold
    have hlook : lookupJob (cleanup_old_jobs reg now maxAge).1 jid = none := by
      unfold lookupJob
      rw [List.find?_eq_none.mpr ?hall]
      · rfl
      case hall =>
        intro e he
        have hmf := List.mem_filter.mp he
        intro hbeq
        have hkey : e.1 = jid := by simpa using hbeq
        have heq : e = (jid, j) := by
          apply List.inj_on_of_nodup_map hnodup hmf.1 hmem
          simpa using hkey
        rw [heq] at hmf
        have hcond := hmf.2
        simp only [Bool.not_eq_true'] at hcond
        rw [decide_eq_false_iff_not] at hcond
        exact hcond hold
    refine ⟨hlook, ?_, ?_, ?_⟩
    · unfold statusRoute
      rw [hlook]
    · unfold downloadRoute
      rw [hlook]
    · show j.input_path ∈ (reg.filter
        (fun e => decide (now - e.2.created_at > maxAge))).map
        (fun e => e.2.input_path)
      refine List.mem_map.mpr ⟨(jid, j), ?_, rfl⟩
      exact List.mem_filter.mpr ⟨hmem, by simpa using hold⟩
  · intro hyoung
    have hmemf : (jid, j) ∈ (cleanup_old_jobs reg now maxAge).1 := by
      show (jid, j) ∈ reg.filter (fun e => !(decide (now - e.2.created_at > maxAge)))
      refine List.mem_filter.mpr ⟨hmem, ?_⟩
      simp [hyoung]
    refine ⟨hmemf, ?_⟩
    have hlook : lookupJob (cleanup_old_jobs reg now maxAge).1 jid = some j := by
      unfold lookupJob
      cases hf : (cleanup_old_jobs reg now maxAge).1.find? (fun e => e.1 == jid) with
      | none =>
        exfalso
        have := List.find?_eq_none.mp hf (jid, j) hmemf
        simp at this
      | some e =>
        have hpe := List.find?_some hf
        have hme := List.mem_of_find?_eq_some hf
        have hmr : e ∈ reg := (List.mem_filter.mp hme).1
        have heq : e = (jid, j) := by
          apply List.inj_on_of_nodup_map hnodup hmr hmem
          simpa using hpe
        rw [heq]
        rfl
    unfold statusRoute
    rw [hlook]

/-- The expired sample job. -/
def jOld : Job :=
  { status := "done", progress := 100, output_buffer := some [7],
    error := none, created_at := 0, input_path := "o.pdf" }

/-- The fresh sample job. -/
def jNew : Job :=
  { status := "queued", progress := 0, output_buffer := none,
    error := none, created_at := 5000, input_path := "n.pdf" }

/-- A sample registry with one expired and one fresh job. -/
def regW : List (String × Job) := [("old", jOld), ("new", jNew)]

/-- C9 witness: sweeping regW at time 5000 with a 3600-second window
evicts the job created at time 0 — lookups fail and its input path is
deleted — and keeps the job created at time 5000. -/
theorem c9_witness :
    (statusRoute (cleanup_old_jobs regW 5000 3600).1 "old" =
      Except.error "Job not found") ∧
    ("o.pdf" ∈ (cleanup_old_jobs regW 5000 3600).2) ∧
    (("old", jOld) ∉ (cleanup_old_jobs regW 5000 3600).1) ∧
    (("new", jNew) ∈ (cleanup_old_jobs regW 5000 3600).1) :=
  ⟨((c9_eviction regW 5000 3600 "old" jOld (by decide) (by decide)).1
      (by decide)).2.1,
   ((c9_eviction regW 5000 3600 "old" jOld (by decide) (by decide)).1
      (by decide)).2.2.2,
   by decide,
   ((c9_eviction regW 5000 3600 "new" jNew (by decide) (by decide)).2
      (by decide)).1⟩

end PDFC
